import Mathlib

/-!
Verification development for the stock key-metrics extractor
(`get_data.py` / `app.py`).

The Python code is shallowly embedded:
* numeric values are modelled as `ℚ` (every value the code handles is a
  finite decimal literal, parsed exactly);
* a parsed HTML document is modelled by the collections that the code's
  `find` / `find_all` calls return (element texts, section item texts,
  table cells), since the claims are about the per-element logic, not
  about the DOM plumbing;
* `None` / absent dictionary keys are `Option.none`; Python truthiness of
  a numeric field (`None` and `0.0` are falsy) is `truthyQ`;
* regular-expression operations are implemented directly
  (`findNums` for `\d+\.?\d*` findall, `findPercents` for `\d+\.?\d*%`,
  `searchDiv` for the dividend pattern, `strictPriceText` for
  `^\d{1,4}\.\d{2}$`); scope is ASCII, as on the target pages;
* the code's broad `except` handlers only matter for effects (printing);
  every modelled operation is total, so the "never raises" parts of the
  spec correspond to totality of the definitions.
-/

/-- Build a string from a list of characters (inverse of `String.data`). -/
def strOf (l : List Char) : String := ⟨l⟩

/-- Python `str.upper` (ASCII scope), implemented structurally on the
character list so that it reduces in the kernel. -/
def String.pyUpper (s : String) : String := strOf (s.data.map Char.toUpper)

/-- Python `str.lower` (ASCII scope), implemented structurally on the
character list so that it reduces in the kernel. -/
def String.pyLower (s : String) : String := strOf (s.data.map Char.toLower)

/-- `charsStart s p` means the character list `p` is an initial segment of `s`. -/
def charsStart : List Char → List Char → Bool
  | _, [] => true
  | [], _ :: _ => false
  | a :: s, b :: p => a == b && charsStart s p

/-- `charsHave s p`: `p` occurs contiguously somewhere in `s`
(Python's substring test `p in s`). -/
def charsHave : List Char → List Char → Bool
  | [], p => charsStart [] p
  | a :: s, p => charsStart (a :: s) p || charsHave s p

/-- Python's `pat in s` substring containment. -/
def strContains (s pat : String) : Bool := charsHave s.data pat.data

/-- Python's `str.isalpha`: nonempty and every character alphabetic. -/
def pyIsAlpha (s : String) : Bool := !s.data.isEmpty && s.data.all Char.isAlpha

/-- Python regex `\s` (ASCII scope). -/
def isPySpace (c : Char) : Bool :=
  c = ' ' || c = '\t' || c = '\n' || c = '\r' || c = '\x0b' || c = '\x0c'

/-- Truthiness of an optional number: `None` and `0.0` are falsy. -/
def truthyQ (v : Option ℚ) : Bool :=
  match v with
  | none => false
  | some q => q != 0

/-- Truthiness of an optional string: `None` and `""` are falsy. -/
def truthyS (v : Option String) : Bool :=
  match v with
  | none => false
  | some s => s != ""

/-- Value of a list of decimal digit characters. -/
def natOfDigits (l : List Char) : ℕ :=
  l.foldl (fun n c => 10 * n + (c.toNat - '0'.toNat)) 0

/-- Python `float` on an unsigned decimal string made of digits and dots:
accepts `digits`, `digits.`, `digits.digits`, `.digits`; anything else
(empty, stray characters, a second dot) is a `ValueError`, i.e. `none`. -/
def parseUnsigned? (l : List Char) : Option ℚ :=
  let ip := l.takeWhile Char.isDigit
  match l.dropWhile Char.isDigit with
  | [] => if ip = [] then none else some (mkRat (Int.ofNat (natOfDigits ip)) 1)
  | '.' :: fr =>
    if fr.all Char.isDigit ∧ (ip ≠ [] ∨ fr ≠ []) then
      some (mkRat (Int.ofNat (natOfDigits ip * 10 ^ fr.length + natOfDigits fr))
                  (10 ^ fr.length))
    else none
  | _ => none

/-- Python `float` on a string drawn from the characters `0-9.-`
(the only characters that survive the code's cleaning regex):
an optional single leading minus, then an unsigned decimal. -/
def parseDecimal? (s : String) : Option ℚ :=
  match s.data with
  | '-' :: rest => (parseUnsigned? rest).map Neg.neg
  | l => parseUnsigned? l

/-- The sentinel test shared by both normalizers:
`not value or str(value).upper() in ['N/A', 'NA', '--', '', 'NULL']`
(the empty string is both falsy and in the list). -/
def isSentinel (v : String) : Bool :=
  decide (v.pyUpper ∈ (["N/A", "NA", "--", "", "NULL"] : List String))

/-- The cleaning step `re.sub(r'[^\d.-]', '', value)`: keep every digit,
every dot and every minus sign, in place. -/
def cleanChars (v : String) : String :=
  strOf (v.data.filter fun c => c.isDigit || c == '.' || c == '-')

/-- `_clean_numeric_value`: sentinel check, cleaning regex, degenerate-form
check, then `float` (whose `ValueError` is caught, giving `None`). -/
def cleanNumericValue (v : String) : Option ℚ :=
  if isSentinel v then none
  else
    let cleaned := cleanChars v
    if cleaned ≠ "" ∧ cleaned ∉ (["-", ".", "-."] : List String) then
      parseDecimal? cleaned
    else none

/-- `_clean_percentage_value`: the source duplicates the body of
`_clean_numeric_value` verbatim (the `%` sign is removed by the filter). -/
def cleanPercentageValue (v : String) : Option ℚ :=
  if isSentinel v then none
  else
    let cleaned := cleanChars v
    if cleaned ≠ "" ∧ cleaned ∉ (["-", ".", "-."] : List String) then
      parseDecimal? cleaned
    else none

/-- Keep only the first `.` of a character list (`seen` = a dot was kept). -/
def dropExtraDots : List Char → Bool → List Char
  | [], _ => []
  | c :: t, seen =>
    if c = '.' then
      if seen then dropExtraDots t seen
      else '.' :: dropExtraDots t true
    else c :: dropExtraDots t seen

/-- Modelled from the spec's words, for comparison with the code:
"strip everything except digits, a single leading minus sign, and a single
decimal point". Keep the digits and dots in order, keep only the first
dot, and keep a minus only as a leading sign. -/
def specResidual (v : String) : String :=
  let kept := v.data.filter fun c => c.isDigit || c == '.' || c == '-'
  let sign : List Char := if kept.head? = some '-' then ['-'] else []
  strOf (sign ++ dropExtraDots (kept.filter fun c => c ≠ '-') false)

/-- Modelled from the spec's words (claim C3's description of
`normalize_numeric`): sentinel tokens are absent; otherwise the residual
of `specResidual` is parsed unless empty or degenerate. -/
def specNormalizeNumeric (v : String) : Option ℚ :=
  if isSentinel v then none
  else
    let r := specResidual v
    if r ≠ "" ∧ r ∉ (["-", ".", "-."] : List String) then parseDecimal? r
    else none

/-- A cleaned residual already has the shape the spec assumes: at most one
minus, only in leading position, and at most one dot. -/
def wellFormedResidual (s : String) : Bool :=
  decide (s.data.count '-' ≤ 1) &&
  (s.data.count '-' == 0 || s.data.head? == some '-') &&
  decide (s.data.count '.' ≤ 1)

/-- One greedy match of the token regex `\d+\.?\d*` at the head of the
list (requires a leading digit): the matched characters and the rest. -/
def grabToken : List Char → Option (List Char × List Char)
  | [] => none
  | c :: t =>
    if c.isDigit then
      match (c :: t).dropWhile Char.isDigit with
      | '.' :: r2 =>
        some ((c :: t).takeWhile Char.isDigit ++ '.' :: r2.takeWhile Char.isDigit,
              r2.dropWhile Char.isDigit)
      | r => some ((c :: t).takeWhile Char.isDigit, r)
    else none

/-- `re.findall(r'\d+\.?\d*', text)`: scan left to right, at a digit take
the greedy token and continue after it, otherwise skip one character.
Fuel-driven for structural recursion; each step consumes at least one
character, so fuel = length of the list is always enough. -/
def findNumsGo : Nat → List Char → List String
  | 0, _ => []
  | _ + 1, [] => []
  | fuel + 1, c :: t =>
    if c.isDigit then
      match grabToken (c :: t) with
      | some (g, r) => strOf g :: findNumsGo fuel r
      | none => findNumsGo fuel t
    else findNumsGo fuel t

def findNums (l : List Char) : List String := findNumsGo l.length l

/-- One match of `\d+\.?\d*%` at the head of the list. A failed `%` cannot
be rescued by regex backtracking (shrinking the token leaves a digit or a
dot where `%` is required), so greedy matching is exact. -/
def percentAt (l : List Char) : Option (String × List Char) :=
  match grabToken l with
  | some (g, '%' :: r2) => some (strOf (g ++ ['%']), r2)
  | _ => none

/-- `re.findall(r'\d+\.?\d*%', text)`: on a failed match the scan advances
by one character (it may re-enter the middle of a number), on a success it
continues after the `%`. -/
def findPercentsGo : Nat → List Char → List String
  | 0, _ => []
  | _ + 1, [] => []
  | fuel + 1, c :: t =>
    match percentAt (c :: t) with
    | some (tok, rest) => tok :: findPercentsGo fuel rest
    | none => findPercentsGo fuel t

def findPercents (l : List Char) : List String := findPercentsGo l.length l

/-- Attempt the dividend pattern `(\d+\.?\d*)\s*\((\d+\.?\d*%?)\)` at the
head of the list, returning the two capture groups. Greedy matching with
no backtracking is exact here: any character a shrunk sub-expression gives
back is a digit or a dot, which can never satisfy the following `\s*\(`,
`%?` or `\)`. -/
def matchDivAt (l : List Char) : Option (String × String) :=
  match grabToken l with
  | none => none
  | some (g1, r1) =>
    match r1.dropWhile isPySpace with
    | '(' :: r3 =>
      match grabToken r3 with
      | none => none
      | some (g2, r4) =>
        match r4 with
        | '%' :: ')' :: _ => some (strOf g1, strOf (g2 ++ ['%']))
        | ')' :: _ => some (strOf g1, strOf g2)
        | _ => none
    | _ => none

/-- `re.search` for the dividend pattern: try each position left to right. -/
def searchDiv : List Char → Option (String × String)
  | [] => none
  | c :: t =>
    match matchDivAt (c :: t) with
    | some p => some p
    | none => searchDiv t

/-- The per-symbol metrics dictionary built by `get_key_metrics`. -/
structure Metrics where
  symbol : String
  current_price : Option ℚ
  pe_ratio_ttm : Option ℚ
  forward_dividend_rate : Option ℚ
  forward_dividend_yield : Option ℚ
  growth_estimate_next_year : Option ℚ
  error : Option String

/-- The freshly initialised dictionary (every metric `None`). -/
def emptyMetrics : Metrics := ⟨"", none, none, none, none, none, none⟩

/-- `_parse_dividend_info(dividend_text, metrics)`: on a pattern match the
two fields are assigned unconditionally; otherwise the first free number
becomes the rate and the first free percentage the yield, each only when
the field is not already truthy. -/
def parseDividendInfo (txt : String) (m : Metrics) : Metrics :=
  match searchDiv txt.data with
  | some (g1, g2) =>
    { m with forward_dividend_rate := parseDecimal? g1,
             forward_dividend_yield := cleanPercentageValue g2 }
  | none =>
    let numbers := findNums txt.data
    let percentages := findPercents txt.data
    let m1 :=
      match numbers with
      | n :: _ =>
        if truthyQ m.forward_dividend_rate then m
        else { m with forward_dividend_rate := parseDecimal? n }
      | [] => m
    match percentages with
    | p :: _ =>
      if truthyQ m1.forward_dividend_yield then m1
      else { m1 with forward_dividend_yield := cleanPercentageValue p }
    | [] => m1

/-- One item of a quote-statistics section, from the loop body of
`_extract_from_quote_stats` (the item's `get_text` is the string; the
stripped/lower-cased view used for matching and the raw view used for
`findall` are both modelled by it). -/
def processStatsItem (item : String) (m : Metrics) : Metrics :=
  let text := item.pyLower
  if strContains text "pe ratio" || strContains text "p/e ratio" then
    if strContains text "ttm" || strContains text "trailing" then
      match (findNums item.data).getLast? with
      | some tok => { m with pe_ratio_ttm := cleanNumericValue tok }
      | none => m
    else m
  else
    if strContains text "dividend" && strContains text "yield" then
      parseDividendInfo item m
    else m

/-- `_extract_from_quote_stats`: the document is modelled by the list of
sections the two `find_all` calls produce, each section by the texts of
its `li`/`tr`/`div` items. -/
def extractFromQuoteStats (sections : List (List String)) (m : Metrics) : Metrics :=
  sections.foldl (fun acc sec => sec.foldl (fun a item => processStatsItem item a) acc) m

/-- One table row of `_extract_from_tables` (cells are the stripped texts
of the row's `td`/`th` elements). -/
def processTableRow (cells : List String) (m : Metrics) : Metrics :=
  if 2 ≤ cells.length then
    let label := (cells.headD "").pyLower
    let value := cells.getD 1 ""
    if (strContains label "pe ratio" || strContains label "p/e ratio") &&
       (strContains label "ttm" || strContains label "trailing") then
      { m with pe_ratio_ttm := cleanNumericValue value }
    else if strContains label "forward annual dividend rate" then
      { m with forward_dividend_rate := cleanNumericValue value }
    else if strContains label "forward annual dividend yield" then
      { m with forward_dividend_yield := cleanPercentageValue value }
    else if strContains label "dividend" && strContains label "yield" &&
            strContains label "forward" then
      parseDividendInfo value m
    else m
  else m

/-- `_extract_from_tables`: every table, row by row. -/
def extractFromTables (tables : List (List (List String))) (m : Metrics) : Metrics :=
  tables.foldl (fun acc t => t.foldl (fun a row => processTableRow row a) acc) m

/-- A parent element's identifying attributes, for the strategy-5 price
fallback (`data-testid` and the class list). -/
structure Parent where
  testid : Option String
  classes : List String

/-- A `span`/`div` element candidate for the strategy-5 price fallback. -/
structure PElem where
  text : String
  parent : Option Parent

/-- The elements `_extract_current_price` looks at, keyed by strategy:
the `qsp-price` span text, the `fin-streamer` elements (value attribute,
displayed text), the price-class span texts inside a `quote-price`
section, the span texts of the quote header, and every `span`/`div`
element for the global fallback. -/
structure PriceDoc where
  qspPrice : Option String
  finStreamers : List (Option String × String)
  quotePriceSpans : Option (List String)
  quoteHeaderSpans : Option (List String)
  allElems : List PElem

/-- The strict price pattern `^\d{1,4}\.\d{2}$`. -/
def strictPriceText (s : String) : Bool :=
  let ds := s.data.takeWhile Char.isDigit
  (decide (1 ≤ ds.length) && decide (ds.length ≤ 4)) &&
  (match s.data.dropWhile Char.isDigit with
   | ['.', a, b] => a.isDigit && b.isDigit
   | _ => false)

/-- `' '.join` plus the `data-testid` default, building `parent_attrs`. -/
def parentAttrs (p : Parent) : String :=
  p.testid.getD "" ++ " " ++ String.intercalate " " p.classes

/-- Strategy 2: the `fin-streamer` loop (`value` attribute or text,
accept a truthy price `> 0`). -/
def finStreamerScan : List (Option String × String) → Option ℚ
  | [] => none
  | (attr, txt) :: rest =>
    let v := if truthyS attr then attr.getD "" else txt
    if v ≠ "" then
      match cleanNumericValue v with
      | some p => if p ≠ 0 ∧ 0 < p then some p else finStreamerScan rest
      | none => finStreamerScan rest
    else finStreamerScan rest

/-- Strategies 3 and 4 share this loop: spans whose text matches the
strict pattern, accepted when the price is truthy and `> 1`. -/
def strictScan : List String → Option ℚ
  | [] => none
  | t :: rest =>
    if strictPriceText t then
      match cleanNumericValue t with
      | some p => if p ≠ 0 ∧ 1 < p then some p else strictScan rest
      | none => strictScan rest
    else strictScan rest

/-- Strategy 5, the global fallback of `_extract_current_price`: any
`span`/`div` whose text matches the strict pattern, accepted only when
the value is truthy and `> 1`, the parent exists with a truthy
`data-testid` or class, and the parent attributes mention one of
`price`, `quote`, `market` (lower-cased). -/
def method5Go : List PElem → Option ℚ
  | [] => none
  | e :: rest =>
    if strictPriceText e.text then
      match cleanNumericValue e.text with
      | some p =>
        if p ≠ 0 ∧ 1 < p then
          match e.parent with
          | some par =>
            if truthyS par.testid || !par.classes.isEmpty then
              if strContains (parentAttrs par).pyLower "price" ||
                 strContains (parentAttrs par).pyLower "quote" ||
                 strContains (parentAttrs par).pyLower "market" then some p
              else method5Go rest
            else method5Go rest
          | none => method5Go rest
        else method5Go rest
      | none => method5Go rest
    else method5Go rest

/-- The five price strategies in priority order; each `return` in the
source corresponds to a `some` here, falling through otherwise. -/
def findPrice (d : PriceDoc) : Option ℚ :=
  (match d.qspPrice with
   | some t =>
     match cleanNumericValue t with
     | some p => if p ≠ 0 ∧ 0 < p then some p else none
     | none => none
   | none => none) <|>
  finStreamerScan d.finStreamers <|>
  (match d.quotePriceSpans with
   | some spans => strictScan spans
   | none => none) <|>
  (match d.quoteHeaderSpans with
   | some spans => strictScan spans
   | none => none) <|>
  method5Go d.allElems

/-- `_extract_current_price`: sets `current_price` from the first
successful strategy, otherwise leaves the record unchanged. -/
def extractCurrentPrice (d : PriceDoc) (m : Metrics) : Metrics :=
  match findPrice d with
  | some p => { m with current_price := some p }
  | none => m

/-- The summary page, modelled by what the summary extractors look up:
the three `data-testid` element texts of `_extract_by_testid`, the
quote-statistics sections, the tables, and the price elements. -/
structure SummaryDoc where
  testid_pe : Option String
  testid_fwd_div : Option String
  testid_td_div : Option String
  statsSections : List (List String)
  tables : List (List (List String))
  priceDoc : PriceDoc

/-- The guard `if value and value.upper() not in ['N/A', 'NA', '--']`. -/
def testidGate (v : String) : Bool :=
  decide (v ≠ "") && decide (v.pyUpper ∉ (["N/A", "NA", "--"] : List String))

/-- `_extract_by_testid`, iterating the `test_ids` mapping in insertion
order: `PE_RATIO-value` assigns the cleaned P/E, the two dividend ids
route through `_parse_dividend_info`. -/
def extractByTestid (d : SummaryDoc) (m : Metrics) : Metrics :=
  let m1 :=
    match d.testid_pe with
    | some v => if testidGate v then { m with pe_ratio_ttm := cleanNumericValue v } else m
    | none => m
  let m2 :=
    match d.testid_fwd_div with
    | some v => if testidGate v then parseDividendInfo v m1 else m1
    | none => m1
  match d.testid_td_div with
  | some v => if testidGate v then parseDividendInfo v m2 else m2
  | none => m2

/-- The body of `_get_summary_metrics` after a 200 fetch: the four
extractors run in sequence on the same document. -/
def runSummaryExtractors (d : SummaryDoc) : Metrics :=
  extractFromTables d.tables
    (extractFromQuoteStats d.statsSections
      (extractByTestid d
        (extractCurrentPrice d.priceDoc emptyMetrics)))

/-- `_get_summary_metrics`: a non-200 status yields an error-only phase
dictionary; otherwise the extractor chain runs. -/
def getSummaryMetrics (status : Nat) (d : SummaryDoc) : Metrics :=
  if status ≠ 200 then
    { emptyMetrics with
      error := some ("Failed to retrieve summary data: Status code " ++ toString status) }
  else runSummaryExtractors d

/-- A table of the analysis page: the cells of its `thead` (when present),
all of its `tr` rows in document order (the `thead` row included, as
`find_all('tr')` descends into it), and the text of its parent element
(used by search method 3). Cell strings are the stripped `get_text`. -/
structure Table where
  thead : Option (List String)
  trs : List (List String)
  parentText : String

/-- `table.get_text()` modelled as the concatenation of all cell texts. -/
def tableText (t : Table) : String :=
  String.join (t.trs.map fun r => String.join r)

/-- The header-column test of `_extract_from_growth_table`:
`any(keyword in header.lower() for keyword in
['next year', 'next 5 years', '2025', '2024'])`. -/
def growthColHeader (h : String) : Bool :=
  strContains h.pyLower "next year" || strContains h.pyLower "next 5 years" ||
  strContains h.pyLower "2025" || strContains h.pyLower "2024"

/-- The company-row test of `_extract_from_growth_table`, applied to the
upper-cased first cell: equality with the upper-cased symbol, or a short
purely-alphabetic cell free of the benchmark markers. -/
def isCompanyRow (sym first : String) : Bool :=
  first == sym.pyUpper ||
    (decide (first.length ≤ 6) && pyIsAlpha first &&
     !(strContains first "S&P") && !(strContains first "500") &&
     !(strContains first "SECTOR") && !(strContains first "INDUSTRY"))

/-- The data-row loop of `_extract_from_growth_table`: on the first row
that is long enough and passes the company test, if the target cell is
truthy and not in `['N/A', 'NA', '--']` the function returns the cleaned
percentage (even when cleaning yields `None`); otherwise it keeps
scanning. -/
def scanRows (sym : String) (idx : Nat) : List (List String) → Option ℚ
  | [] => none
  | cells :: rest =>
    if idx < cells.length then
      if isCompanyRow sym ((cells.headD "").pyUpper) then
        let g := cells.getD idx ""
        if g ≠ "" ∧ g.pyUpper ∉ (["N/A", "NA", "--"] : List String) then
          cleanPercentageValue g
        else scanRows sym idx rest
      else scanRows sym idx rest
    else scanRows sym idx rest

/-- `_extract_from_growth_table`: header row (`thead` or first `tr`),
first matching column, then the row scan. -/
def extractFromGrowthTable (t : Table) (sym : String) : Option ℚ :=
  match t.thead <|> t.trs.head? with
  | none => none
  | some headers =>
    match headers.findIdx? growthColHeader with
    | none => none
    | some idx => scanRows sym idx t.trs

/-- The analysis page: the `growthEstimate` section (present or not, and
if present its first table or not), and every table of the document. -/
structure AnalysisDoc where
  growthSection : Option (Option Table)
  tables : List Table

/-- Search method 2: first table whose text mentions both `growth` and
`next year` and yields a value. -/
def growthMethod2 (sym : String) : List Table → Option ℚ
  | [] => none
  | t :: rest =>
    if strContains (tableText t).pyLower "growth" &&
       strContains (tableText t).pyLower "next year" then
      match extractFromGrowthTable t sym with
      | some r => some r
      | none => growthMethod2 sym rest
    else growthMethod2 sym rest

/-- Search method 3: first table whose parent text mentions `estimate`
and `growth`, or whose own text mentions `next year`, and yields a value. -/
def growthMethod3 (sym : String) : List Table → Option ℚ
  | [] => none
  | t :: rest =>
    if (strContains t.parentText.pyLower "estimate" &&
        strContains t.parentText.pyLower "growth") ||
       strContains (tableText t).pyLower "next year" then
      match extractFromGrowthTable t sym with
      | some r => some r
      | none => growthMethod3 sym rest
    else growthMethod3 sym rest

/-- `_extract_growth_estimate_table`: the three search methods in order. -/
def extractGrowthEstimateTable (d : AnalysisDoc) (sym : String) : Option ℚ :=
  let m1 :=
    match d.growthSection with
    | some (some t) => extractFromGrowthTable t sym
    | _ => none
  match m1 with
  | some r => some r
  | none =>
    match growthMethod2 sym d.tables with
    | some r => some r
    | none => growthMethod3 sym d.tables

/-- `_get_growth_estimates`: a non-200 status yields an error-only phase
dictionary; otherwise the growth key is set only when a value was found. -/
def getGrowthEstimates (sym : String) (status : Nat) (d : AnalysisDoc) : Metrics :=
  if status ≠ 200 then
    { emptyMetrics with
      error := some ("Failed to retrieve analysis data: Status code " ++ toString status) }
  else
    match extractGrowthEstimateTable d sym with
    | some g => { emptyMetrics with growth_estimate_next_year := some g }
    | none => emptyMetrics

/-- `metrics.update(phase)`: a key present in the phase dictionary
replaces the base value. The base record starts with every field `None`,
so a phase key that is absent (`none` here) leaves the base value. -/
def updateMetrics (base upd : Metrics) : Metrics :=
  { symbol := base.symbol,
    current_price := upd.current_price <|> base.current_price,
    pe_ratio_ttm := upd.pe_ratio_ttm <|> base.pe_ratio_ttm,
    forward_dividend_rate := upd.forward_dividend_rate <|> base.forward_dividend_rate,
    forward_dividend_yield := upd.forward_dividend_yield <|> base.forward_dividend_yield,
    growth_estimate_next_year := upd.growth_estimate_next_year <|> base.growth_estimate_next_year,
    error := upd.error <|> base.error }

/-- `get_key_metrics`, with the two fetch outcomes passed in (status code
plus the parsed document): initialise the record, merge the summary
phase, then merge the analysis phase. The `time.sleep` and the outer
`except` (all modelled steps are total) have no observable effect here. -/
def getKeyMetrics (symbol : String) (s1 : Nat) (d1 : SummaryDoc)
    (s2 : Nat) (d2 : AnalysisDoc) : Metrics :=
  let m0 : Metrics := { emptyMetrics with symbol := symbol.pyUpper }
  let m1 := updateMetrics m0 (getSummaryMetrics s1 d1)
  updateMetrics m1 (getGrowthEstimates symbol s2 d2)

/-- The derived mapping of `calculate_additional_metrics` (`app.py`);
field names follow the source keys `peg_ratio`, `estimated_eps`,
`dividend_coverage_ratio`, `estimated_pb_ratio`. -/
structure AdditionalMetrics where
  peg : Option ℚ
  eps : Option ℚ
  coverage : Option ℚ
  pb : Option ℚ

/-- `calculate_additional_metrics`: every guard is Python truthiness on
the metric fields, divisions additionally guarded against zero. -/
def calculateAdditionalMetrics (m : Metrics) : AdditionalMetrics :=
  let peV := m.pe_ratio_ttm.getD 0
  let gV := m.growth_estimate_next_year.getD 0
  let cpV := m.current_price.getD 0
  let rateV := m.forward_dividend_rate.getD 0
  let peg :=
    if truthyQ m.pe_ratio_ttm && truthyQ m.growth_estimate_next_year then
      if gV ≠ 0 then some (peV / gV) else none
    else none
  let epsOpt :=
    if truthyQ m.forward_dividend_rate && truthyQ m.current_price &&
       truthyQ m.pe_ratio_ttm then
      if peV ≠ 0 then some (cpV / peV) else none
    else none
  let eps :=
    match epsOpt with
    | some v => if v ≠ 0 then some v else none
    | none => none
  let coverage :=
    match epsOpt with
    | some v => if v ≠ 0 then (if rateV ≠ 0 then some (v / rateV) else none) else none
    | none => none
  let pb :=
    if truthyQ m.pe_ratio_ttm && truthyQ m.growth_estimate_next_year then
      some (peV * (if truthyQ m.growth_estimate_next_year then gV / 100 else 1 / 10))
    else none
  ⟨peg, eps, coverage, pb⟩

/-- Python `f'{x:.2f}'` on an exact rational (rounding to two decimals;
the claims only inspect the `N/A` branches, never this rendering). -/
def fmt2 (q : ℚ) : String :=
  let n : ℤ := round (q * 100)
  let a := n.natAbs
  (if n < 0 then "-" else "") ++ toString (a / 100) ++ "." ++
    (if a % 100 < 10 then "0" ++ toString (a % 100) else toString (a % 100))

/-- The lines built by `format_metrics_display`: a truthy field is
rendered, a `None` or zero field prints `N/A`, and a truthy error string
appends an error line. -/
def displayLines (m : Metrics) : List String :=
  ["Symbol: " ++ m.symbol] ++
  [if truthyQ m.current_price then
     "Current Price: $" ++ fmt2 (m.current_price.getD 0)
   else "Current Price: N/A"] ++
  [if truthyQ m.pe_ratio_ttm then
     "PE Ratio (TTM): " ++ fmt2 (m.pe_ratio_ttm.getD 0)
   else "PE Ratio (TTM): N/A"] ++
  [if truthyQ m.forward_dividend_rate then
     "Forward Dividend Rate: $" ++ fmt2 (m.forward_dividend_rate.getD 0)
   else "Forward Dividend Rate: N/A"] ++
  [if truthyQ m.forward_dividend_yield then
     "Forward Dividend Yield: " ++ fmt2 (m.forward_dividend_yield.getD 0) ++ "%"
   else "Forward Dividend Yield: N/A"] ++
  [if truthyQ m.growth_estimate_next_year then
     "Growth Estimate Next Year: " ++ fmt2 (m.growth_estimate_next_year.getD 0) ++ "%"
   else "Growth Estimate Next Year: N/A"] ++
  (if truthyS m.error then ["Error: " ++ m.error.getD ""] else [])

/-- `format_metrics_display` returns the lines joined with newlines. -/
def formatMetricsDisplay (m : Metrics) : String :=
  String.intercalate "\n" (displayLines m)

/-! ## Helper lemmas -/

theorem truthyQ_eq_true_iff (o : Option ℚ) :
    truthyQ o = true ↔ ∃ v, o = some v ∧ v ≠ 0 := by
  cases o with
  | none => simp [truthyQ]
  | some q => simp [truthyQ, bne_iff_ne]

theorem dropExtraDots_of_not_mem (l : List Char) (h : '.' ∉ l) (b : Bool) :
    dropExtraDots l b = l := by
  induction l generalizing b with
  | nil => rfl
  | cons c t ih =>
    have hc : ¬(c = '.') := fun e => h (e ▸ List.mem_cons_self c t)
    have ht : '.' ∉ t := fun e => h (List.mem_cons_of_mem _ e)
    simp [dropExtraDots, hc, ih ht]

theorem dropExtraDots_of_count_le_one (l : List Char) (h : l.count '.' ≤ 1) :
    dropExtraDots l false = l := by
  induction l with
  | nil => rfl
  | cons c t ih =>
    by_cases hc : c = '.'
    · subst hc
      have h0 : t.count '.' = 0 := by
        have := List.count_cons_self ('.' : Char) t
        omega
      have hnm : '.' ∉ t := List.count_eq_zero.mp h0
      simp [dropExtraDots, dropExtraDots_of_not_mem t hnm true]
    · have ht : t.count '.' ≤ 1 := by
        rw [List.count_cons] at h
        omega
      simp [dropExtraDots, hc, ih ht]

theorem residual_reassembly (k : List Char) (hm1 : k.count '-' ≤ 1)
    (hm0 : k.count '-' = 0 ∨ k.head? = some '-') (hd1 : k.count '.' ≤ 1) :
    (if k.head? = some '-' then ['-'] else []) ++
      dropExtraDots (k.filter fun c => c ≠ '-') false = k := by
  cases k with
  | nil => simp [dropExtraDots]
  | cons c t =>
    by_cases hc : c = '-'
    · subst hc
      have ht0 : t.count '-' = 0 := by
        have := List.count_cons_self ('-' : Char) t
        omega
      have hmem : '-' ∉ t := List.count_eq_zero.mp ht0
      have hfil : t.filter (fun c => c ≠ '-') = t := by
        rw [List.filter_eq_self]
        intro a ha
        simp only [decide_eq_true_eq]
        exact fun e => hmem (e ▸ ha)
      have hdt : t.count '.' ≤ 1 := by
        rw [List.count_cons] at hd1
        omega
      have hfil2 : t.filter (fun c => !decide (c = '-')) = t := by
        rw [List.filter_eq_self]
        intro a ha
        simp only [Bool.not_eq_true', decide_eq_false_iff_not]
        exact fun e => hmem (e ▸ ha)
      simp [List.filter_cons, hfil2, dropExtraDots_of_count_le_one t hdt]
    · have hh : ¬((c :: t).head? = some '-') := by
        simp only [List.head?_cons, Option.some.injEq]
        exact hc
      have h0 : (c :: t).count '-' = 0 := by
        rcases hm0 with h | h
        · exact h
        · exact absurd h hh
      have hmem : '-' ∉ c :: t := List.count_eq_zero.mp h0
      have hfil : (c :: t).filter (fun c => c ≠ '-') = c :: t := by
        rw [List.filter_eq_self]
        intro a ha
        simp only [decide_eq_true_eq]
        exact fun e => hmem (e ▸ ha)
      rw [if_neg hh, hfil, dropExtraDots_of_count_le_one _ hd1]
      rfl

theorem specResidual_eq_of_wellFormed (v : String)
    (h : wellFormedResidual (cleanChars v) = true) :
    specResidual v = cleanChars v := by
  have hck : (cleanChars v).data = v.data.filter fun c => c.isDigit || c == '.' || c == '-' := rfl
  simp only [wellFormedResidual, Bool.and_eq_true, Bool.or_eq_true, beq_iff_eq,
    decide_eq_true_eq, hck] at h
  obtain ⟨⟨hm1, hm0⟩, hd1⟩ := h
  show strOf _ = cleanChars v
  rw [residual_reassembly _ hm1 hm0 hd1]
  rfl

/-! ## Claim C3 -/

/-- Claim C3 (amended): `_clean_numeric_value` returns absent for the
sentinel tokens, and on every input whose surviving characters already
have the clean shape the spec describes (at most one minus, only leading,
at most one dot) it agrees with the spec-described normalizer. On other
inputs the code keeps every minus and dot, so the `float` parse fails and
the result is absent (see the counterexample); the function is total, so
it never raises. -/
theorem clean_numeric_spec_agreement (v : String) :
    (isSentinel v = true → cleanNumericValue v = none) ∧
    (wellFormedResidual (cleanChars v) = true →
      cleanNumericValue v = specNormalizeNumeric v) := by
  constructor
  · intro h
    simp [cleanNumericValue, h]
  · intro h
    have hre := specResidual_eq_of_wellFormed v h
    simp only [cleanNumericValue, specNormalizeNumeric, hre]

/-- Claim C3 counterexample: on `"5-3"` the claim's described stripping
(keep digits and only a leading minus) leaves `"53"`, which parses to 53,
but the code keeps the embedded minus, `float("5-3")` raises `ValueError`,
and the code returns absent. -/
theorem clean_numeric_multiminus_counterexample :
    specNormalizeNumeric "5-3" = some 53 ∧ cleanNumericValue "5-3" = none := by
  constructor <;> rfl

/-- Witness for `clean_numeric_spec_agreement` at the sentinel `"n/a"`
and at a decorated numeric string. -/
theorem clean_numeric_spec_agreement_witness :
    cleanNumericValue "n/a" = none ∧
    cleanNumericValue "$1,234.56" = specNormalizeNumeric "$1,234.56" :=
  ⟨(clean_numeric_spec_agreement "n/a").1 (by decide),
   (clean_numeric_spec_agreement "$1,234.56").2 (by decide)⟩

/-! ## Claim C1 -/

theorem parseDividendInfo_preserves_cp (txt : String) (m : Metrics) :
    (parseDividendInfo txt m).current_price = m.current_price := by
  unfold parseDividendInfo
  dsimp only
  repeat' split
  all_goals rfl

theorem processStatsItem_preserves_cp (item : String) (m : Metrics) :
    (processStatsItem item m).current_price = m.current_price := by
  unfold processStatsItem
  dsimp only
  repeat' split
  all_goals first
    | rfl
    | exact parseDividendInfo_preserves_cp _ _

theorem processTableRow_preserves_cp (cells : List String) (m : Metrics) :
    (processTableRow cells m).current_price = m.current_price := by
  unfold processTableRow
  dsimp only
  repeat' split
  all_goals first
    | rfl
    | exact parseDividendInfo_preserves_cp _ _

theorem foldl_preserves_cp {α : Type} (f : Metrics → α → Metrics)
    (hf : ∀ m a, (f m a).current_price = m.current_price) :
    ∀ (l : List α) (m : Metrics), (l.foldl f m).current_price = m.current_price := by
  intro l
  induction l with
  | nil => intro m; rfl
  | cons a t ih => intro m; rw [List.foldl_cons, ih, hf]

theorem extractFromQuoteStats_preserves_cp (sections : List (List String)) (m : Metrics) :
    (extractFromQuoteStats sections m).current_price = m.current_price := by
  unfold extractFromQuoteStats
  refine foldl_preserves_cp _ (fun m sec => ?_) sections m
  exact foldl_preserves_cp _ (fun m item => processStatsItem_preserves_cp item m) sec m

theorem extractFromTables_preserves_cp (tables : List (List (List String))) (m : Metrics) :
    (extractFromTables tables m).current_price = m.current_price := by
  unfold extractFromTables
  refine foldl_preserves_cp _ (fun m t => ?_) tables m
  exact foldl_preserves_cp _ (fun m row => processTableRow_preserves_cp row m) t m

theorem extractByTestid_preserves_cp (d : SummaryDoc) (m : Metrics) :
    (extractByTestid d m).current_price = m.current_price := by
  unfold extractByTestid
  dsimp only
  repeat' split
  all_goals simp only [parseDividendInfo_preserves_cp]

/-- Claim C1 (amended): `current_price` is written only by the price
extractor: once `_extract_current_price` has run, none of the later
locators (`_extract_by_testid`, `_extract_from_quote_stats`,
`_extract_from_tables`) ever changes it. For the P/E and dividend
fields the original claim fails: those locators assign unconditionally,
so a lower-priority locator overwrites an earlier value (see the
counterexample); only the fallback branch of `_parse_dividend_info`
checks before writing. -/
theorem summary_locators_preserve_current_price (d : SummaryDoc) (m : Metrics) :
    (extractFromTables d.tables
      (extractFromQuoteStats d.statsSections (extractByTestid d m))).current_price =
      m.current_price := by
  rw [extractFromTables_preserves_cp, extractFromQuoteStats_preserves_cp,
    extractByTestid_preserves_cp]

/-- Claim C1 counterexample: with a `PE_RATIO-value` element reading
`"30.0"` (the highest-priority P/E locator) and a quote-statistics item
`"PE Ratio (TTM) 28.5"`, the testid locator first populates
`pe_ratio_ttm = 30`, and the lower-priority quote-statistics locator then
changes it to 28.5 in the final summary record. -/
theorem pe_overwritten_counterexample :
    (extractByTestid
        ⟨some "30.0", none, none, [["PE Ratio (TTM) 28.5"]], [], ⟨none, [], none, none, []⟩⟩
        (extractCurrentPrice ⟨none, [], none, none, []⟩ emptyMetrics)).pe_ratio_ttm =
      some (mkRat 30 1) ∧
    (getSummaryMetrics 200
        ⟨some "30.0", none, none, [["PE Ratio (TTM) 28.5"]], [], ⟨none, [], none, none, []⟩⟩).pe_ratio_ttm =
      some (mkRat 57 2) ∧
    (mkRat 30 1) ≠ mkRat 57 2 := by
  exact ⟨by decide, by decide, by decide⟩

/-! ## Claim C2 -/

/-- Claim C2: if both fetches return a non-200 status, `get_key_metrics`
returns (it cannot raise: the model is total, matching the broad
`except`) a record whose five numeric fields are all absent and whose
error field is a non-empty string; and a failed summary phase does not
stop the analysis phase: with the summary fetch failed and the analysis
fetch at 200, the growth field still carries the analysis extraction
result. -/
theorem fetch_failure_graceful (sym : String) (s1 s2 : Nat)
    (d1 : SummaryDoc) (d2 : AnalysisDoc) (h1 : s1 ≠ 200) :
    (s2 ≠ 200 →
      (getKeyMetrics sym s1 d1 s2 d2).current_price = none ∧
      (getKeyMetrics sym s1 d1 s2 d2).pe_ratio_ttm = none ∧
      (getKeyMetrics sym s1 d1 s2 d2).forward_dividend_rate = none ∧
      (getKeyMetrics sym s1 d1 s2 d2).forward_dividend_yield = none ∧
      (getKeyMetrics sym s1 d1 s2 d2).growth_estimate_next_year = none ∧
      ∃ e, (getKeyMetrics sym s1 d1 s2 d2).error = some e ∧ e ≠ "") ∧
    (s2 = 200 →
      (getKeyMetrics sym s1 d1 s2 d2).growth_estimate_next_year =
        extractGrowthEstimateTable d2 sym) := by
  constructor
  · intro h2
    simp only [getKeyMetrics, getSummaryMetrics, getGrowthEstimates, updateMetrics,
      emptyMetrics, if_pos h1, if_pos h2]
    refine ⟨rfl, rfl, rfl, rfl, rfl, ⟨_, rfl, ?_⟩⟩
    intro he
    have hlen := congrArg String.length he
    rw [String.length_append] at hlen
    have h46 : ("Failed to retrieve analysis data: Status code " : String).length = 46 := rfl
    have h0 : ("" : String).length = 0 := rfl
    simp only [h46, h0] at hlen
    omega
  · intro h2
    subst h2
    simp only [getKeyMetrics, getSummaryMetrics, getGrowthEstimates, updateMetrics,
      emptyMetrics, if_pos h1, if_neg (fun hh : (200 : Nat) ≠ 200 => hh rfl)]
    cases hx : extractGrowthEstimateTable d2 sym <;> simp [hx]

/-- Witness for `fetch_failure_graceful`: both fetches fail (404 and 500)
on empty documents. -/
theorem fetch_failure_graceful_witness :
    (getKeyMetrics "AAPL" 404 ⟨none, none, none, [], [], ⟨none, [], none, none, []⟩⟩
        500 ⟨none, []⟩).current_price = none ∧
    (getKeyMetrics "AAPL" 404 ⟨none, none, none, [], [], ⟨none, [], none, none, []⟩⟩
        500 ⟨none, []⟩).pe_ratio_ttm = none ∧
    (getKeyMetrics "AAPL" 404 ⟨none, none, none, [], [], ⟨none, [], none, none, []⟩⟩
        500 ⟨none, []⟩).forward_dividend_rate = none ∧
    (getKeyMetrics "AAPL" 404 ⟨none, none, none, [], [], ⟨none, [], none, none, []⟩⟩
        500 ⟨none, []⟩).forward_dividend_yield = none ∧
    (getKeyMetrics "AAPL" 404 ⟨none, none, none, [], [], ⟨none, [], none, none, []⟩⟩
        500 ⟨none, []⟩).growth_estimate_next_year = none ∧
    ∃ e, (getKeyMetrics "AAPL" 404 ⟨none, none, none, [], [], ⟨none, [], none, none, []⟩⟩
        500 ⟨none, []⟩).error = some e ∧ e ≠ "" :=
  (fetch_failure_graceful "AAPL" 404 500
    ⟨none, none, none, [], [], ⟨none, [], none, none, []⟩⟩ ⟨none, []⟩
    (by decide)).1 (by decide)

/-! ## Claim C4 -/

theorem mem_takeWhile_digit (l : List Char) (c : Char)
    (h : c ∈ l.takeWhile Char.isDigit) : c.isDigit = true := by
  induction l with
  | nil => simp [List.takeWhile] at h
  | cons a t ih =>
    rw [List.takeWhile_cons] at h
    by_cases ha : a.isDigit
    · rw [if_pos ha] at h
      rcases List.mem_cons.mp h with h1 | h2
      · exact h1 ▸ ha
      · exact ih h2
    · rw [if_neg ha] at h
      simp at h

theorem grabToken_chars (l g r : List Char) (h : grabToken l = some (g, r)) :
    ∀ c ∈ g, c.isDigit = true ∨ c = '.' := by
  intro c hc
  cases l with
  | nil => simp [grabToken] at h
  | cons a t =>
    rw [grabToken] at h
    by_cases ha : a.isDigit
    · rw [if_pos ha] at h
      split at h
      · simp only [Option.some.injEq, Prod.mk.injEq] at h
        obtain ⟨hg, hr⟩ := h
        subst hg
        rcases List.mem_append.mp hc with h1 | h1
        · exact Or.inl (mem_takeWhile_digit _ _ h1)
        · rcases List.mem_cons.mp h1 with h2 | h2
          · exact Or.inr h2
          · exact Or.inl (mem_takeWhile_digit _ _ h2)
      · simp only [Option.some.injEq, Prod.mk.injEq] at h
        obtain ⟨hg, hr⟩ := h
        subst hg
        exact Or.inl (mem_takeWhile_digit _ _ hc)
    · rw [if_neg ha] at h
      cases h

theorem findNumsGo_chars (fuel : Nat) :
    ∀ (l : List Char) (tok : String), tok ∈ findNumsGo fuel l →
      ∀ c ∈ tok.data, c.isDigit = true ∨ c = '.' := by
  induction fuel with
  | zero => intro l tok h; simp [findNumsGo] at h
  | succ f ih =>
    intro l tok h
    cases l with
    | nil => simp [findNumsGo] at h
    | cons a t =>
      rw [findNumsGo] at h
      by_cases ha : a.isDigit
      · rw [if_pos ha] at h
        cases hg : grabToken (a :: t) with
        | some p =>
          obtain ⟨g, r⟩ := p
          rw [hg] at h
          rcases List.mem_cons.mp h with h1 | h2
          · subst h1
            exact grabToken_chars _ _ _ hg
          · exact ih r tok h2
        | none =>
          rw [hg] at h
          exact ih t tok h
      · rw [if_neg ha] at h
        exact ih t tok h

theorem mem_of_getLast_opt {α : Type} :
    ∀ (l : List α) (a : α), l.getLast? = some a → a ∈ l := by
  intro l
  induction l with
  | nil => intro a h; simp at h
  | cons b t ih =>
    intro a h
    cases t with
    | nil =>
      simp only [List.getLast?_singleton, Option.some.injEq] at h
      exact h ▸ List.mem_singleton_self b
    | cons c t2 =>
      rw [List.getLast?_cons_cons] at h
      exact List.mem_cons_of_mem b (ih a h)

/-- Claim C4 (amended): for a quote-statistics item matching the P/E
labels, the extracted value is the cleaned LAST numeric token of the
item's text — but the token regex `\d+\.?\d*` matches no sign, every
character of the token is a digit or a dot, so a negative P/E written in
the text loses its minus sign (it is stored as its absolute value, see
the counterexample) rather than being preserved. -/
theorem quote_stats_last_token_rule (item : String) (m : Metrics)
    (hpe : (strContains item.pyLower "pe ratio" || strContains item.pyLower "p/e ratio") = true)
    (httm : (strContains item.pyLower "ttm" || strContains item.pyLower "trailing") = true)
    (tok : String) (hlast : (findNums item.data).getLast? = some tok) :
    (processStatsItem item m).pe_ratio_ttm = cleanNumericValue tok ∧
    ∀ c ∈ tok.data, c.isDigit = true ∨ c = '.' := by
  constructor
  · unfold processStatsItem
    dsimp only
    rw [if_pos hpe, if_pos httm, hlast]
  · exact findNumsGo_chars _ _ tok (mem_of_getLast_opt _ tok hlast)

/-- Claim C4 counterexample: the quote-statistics item
`"PE Ratio (TTM) -28.5"` carries a negative P/E, but the extractor stores
`28.5`: the minus sign is not part of the numeric token and is dropped,
so the value is turned positive instead of preserved. -/
theorem negative_pe_sign_dropped_counterexample :
    (processStatsItem "PE Ratio (TTM) -28.5" emptyMetrics).pe_ratio_ttm =
      some (mkRat 57 2) ∧
    (mkRat 57 2) ≠ -(mkRat 57 2) := by
  exact ⟨by decide, by decide⟩

/-- Witness for `quote_stats_last_token_rule` on the spec's own example
item `"PE Ratio (TTM) 28.5"`, whose last numeric token is `"28.5"`. -/
theorem quote_stats_last_token_rule_witness :
    (processStatsItem "PE Ratio (TTM) 28.5" emptyMetrics).pe_ratio_ttm =
      cleanNumericValue "28.5" ∧
    ∀ c ∈ ("28.5" : String).data, c.isDigit = true ∨ c = '.' :=
  quote_stats_last_token_rule "PE Ratio (TTM) 28.5" emptyMetrics
    (by decide) (by decide) "28.5" (by decide)

/-! ## Claims C5 and C6 -/

theorem scanRows_sound (sym : String) (idx : Nat) :
    ∀ (rows : List (List String)) (q : ℚ), scanRows sym idx rows = some q →
      ∃ cells, cells ∈ rows ∧ idx < cells.length ∧
        isCompanyRow sym ((cells.headD "").pyUpper) = true ∧
        cleanPercentageValue (cells.getD idx "") = some q := by
  intro rows
  induction rows with
  | nil => intro q h; simp [scanRows] at h
  | cons cells rest ih =>
    intro q h
    rw [scanRows] at h
    by_cases h1 : idx < cells.length
    · rw [if_pos h1] at h
      by_cases h2 : isCompanyRow sym ((cells.headD "").pyUpper) = true
      · rw [if_pos h2] at h
        by_cases h3 : cells.getD idx "" ≠ "" ∧
            (cells.getD idx "").pyUpper ∉ (["N/A", "NA", "--"] : List String)
        · rw [if_pos h3] at h
          exact ⟨cells, List.mem_cons_self cells rest, h1, h2, h⟩
        · rw [if_neg h3] at h
          obtain ⟨c, hm, hrest⟩ := ih q h
          exact ⟨c, List.mem_cons_of_mem cells hm, hrest⟩
      · rw [if_neg h2] at h
        obtain ⟨c, hm, hrest⟩ := ih q h
        exact ⟨c, List.mem_cons_of_mem cells hm, hrest⟩
    · rw [if_neg h1] at h
      obtain ⟨c, hm, hrest⟩ := ih q h
      exact ⟨c, List.mem_cons_of_mem cells hm, hrest⟩

/-- Claim C5: whenever the growth-table extractor returns a value, that
value comes from a row whose first cell (upper-cased) passes the
company-row test — equality with the upper-cased symbol, or at most 6
characters, alphabetic, free of the benchmark markers; and a first cell
`"S&P 500"` never passes the test (for any target symbol other than
`"S&P 500"` itself), so such a benchmark row is never selected however
early it appears. -/
theorem growth_row_selection_guard :
    (∀ (t : Table) (sym : String) (q : ℚ), extractFromGrowthTable t sym = some q →
      ∃ cells, cells ∈ t.trs ∧
        isCompanyRow sym ((cells.headD "").pyUpper) = true ∧
        ∃ idx, idx < cells.length ∧ cleanPercentageValue (cells.getD idx "") = some q) ∧
    (∀ sym : String, sym.pyUpper ≠ "S&P 500" → isCompanyRow sym "S&P 500" = false) := by
  constructor
  · intro t sym q h
    unfold extractFromGrowthTable at h
    cases hh : t.thead <|> t.trs.head? with
    | none => rw [hh] at h; cases h
    | some headers =>
      rw [hh] at h
      dsimp only at h
      cases hidx : headers.findIdx? growthColHeader with
      | none => rw [hidx] at h; cases h
      | some idx =>
        rw [hidx] at h
        dsimp only at h
        obtain ⟨cells, hm, hlen, hrow, hval⟩ := scanRows_sound sym idx t.trs q h
        exact ⟨cells, hm, hrow, idx, hlen, hval⟩
  · intro sym hs
    have h1 : (("S&P 500" : String) == sym.pyUpper) = false :=
      beq_eq_false_iff_ne.mpr (fun e => hs e.symm)
    unfold isCompanyRow
    rw [h1, Bool.false_or]
    decide

/-- Witness for `growth_row_selection_guard`: the spec's example table
(header row first, then the company row) for target `AAPL`, and the
benchmark first cell for target `MSFT`. -/
theorem growth_row_selection_guard_witness :
    (∃ cells, cells ∈ ([["Currency", "Next Year"], ["AAPL", "8.4"]] : List (List String)) ∧
      isCompanyRow "AAPL" ((cells.headD "").pyUpper) = true ∧
      ∃ idx, idx < cells.length ∧
        cleanPercentageValue (cells.getD idx "") = some (mkRat 42 5)) ∧
    isCompanyRow "MSFT" "S&P 500" = false :=
  ⟨growth_row_selection_guard.1
      ⟨none, [["Currency", "Next Year"], ["AAPL", "8.4"]], ""⟩ "AAPL" (mkRat 42 5)
      (by decide),
   growth_row_selection_guard.2 "MSFT" (by decide)⟩

/-- Claim C6 (amended): when a qualifying company row's target cell is
empty or upper-cases to one of `N/A`, `NA`, `--`, the row loop keeps
scanning the remaining rows. But `NULL` is NOT in that gate (the gate
list is shorter than the normalizers' sentinel list): a `NULL` cell
passes the gate, the normalizer then rejects it, and the extractor
returns absent immediately instead of scanning further (see the
counterexample). -/
theorem growth_sentinel_keeps_scanning (sym : String) (idx : Nat)
    (cells : List String) (rest : List (List String))
    (hlen : idx < cells.length)
    (hrow : isCompanyRow sym ((cells.headD "").pyUpper) = true) :
    ((cells.getD idx "" = "" ∨
        (cells.getD idx "").pyUpper ∈ (["N/A", "NA", "--"] : List String)) →
      scanRows sym idx (cells :: rest) = scanRows sym idx rest) ∧
    ((cells.getD idx "").pyUpper = "NULL" →
      scanRows sym idx (cells :: rest) = none) := by
  constructor
  · intro hsent
    rw [scanRows, if_pos hlen, if_pos hrow]
    rw [if_neg ?_]
    intro hgate
    rcases hsent with he | hin
    · exact hgate.1 he
    · exact hgate.2 hin
  · intro hnull
    have hne : cells.getD idx "" ≠ "" := by
      intro he
      rw [he] at hnull
      exact absurd hnull (by decide)
    have hnin : (cells.getD idx "").pyUpper ∉ (["N/A", "NA", "--"] : List String) := by
      rw [hnull]
      decide
    rw [scanRows, if_pos hlen, if_pos hrow, if_pos ⟨hne, hnin⟩]
    unfold cleanPercentageValue
    rw [if_pos ?_]
    unfold isSentinel
    rw [hnull]
    decide

/-- Claim C6 counterexample: the company row carries `NULL` in the target
column and a later qualifying row carries `8.4`; the extractor returns
absent instead of continuing to the later row, although `8.4` normalizes
and the later row passes the company test. -/
theorem growth_null_stops_scan_counterexample :
    extractFromGrowthTable
        ⟨none, [["Currency", "Next Year"], ["AAPL", "NULL"], ["T", "8.4"]], ""⟩ "AAPL" =
      none ∧
    isCompanyRow "AAPL" "T" = true ∧
    cleanPercentageValue "8.4" = some (mkRat 42 5) := by
  exact ⟨by decide, by decide, by decide⟩

/-- Witness for `growth_sentinel_keeps_scanning`: a first row with `N/A`
is skipped and scanning continues on the rest; a first row with `NULL`
ends the scan with absent. -/
theorem growth_sentinel_keeps_scanning_witness :
    scanRows "AAPL" 1 [["AAPL", "N/A"], ["T", "8.4"]] = scanRows "AAPL" 1 [["T", "8.4"]] ∧
    scanRows "AAPL" 1 [["AAPL", "NULL"], ["T", "8.4"]] = none :=
  ⟨(growth_sentinel_keeps_scanning "AAPL" 1 ["AAPL", "N/A"] [["T", "8.4"]]
      (by decide) (by decide)).1 (by decide),
   (growth_sentinel_keeps_scanning "AAPL" 1 ["AAPL", "NULL"] [["T", "8.4"]]
      (by decide) (by decide)).2 (by decide)⟩

/-! ## Claim C7 -/

/-- Claim C7: whenever the dividend text matches the pattern
`(\d+\.?\d*)\s*\((\d+\.?\d*%?)\)`, `_parse_dividend_info` sets the
forward dividend rate to the first capture parsed as a number and the
forward dividend yield to the second capture run through the percentage
normalizer; the concrete instance `"0.96 (1.45%)"` is the witness. -/
theorem dividend_pattern_extraction (txt : String) (m : Metrics) (g1 g2 : String)
    (h : searchDiv txt.data = some (g1, g2)) :
    (parseDividendInfo txt m).forward_dividend_rate = parseDecimal? g1 ∧
    (parseDividendInfo txt m).forward_dividend_yield = cleanPercentageValue g2 := by
  unfold parseDividendInfo
  rw [h]
  exact ⟨rfl, rfl⟩

/-- Witness for `dividend_pattern_extraction`: the spec's example text
`"0.96 (1.45%)"` yields rate `0.96` and yield `1.45`. -/
theorem dividend_pattern_extraction_witness :
    (parseDividendInfo "0.96 (1.45%)" emptyMetrics).forward_dividend_rate =
      some (mkRat 24 25) ∧
    (parseDividendInfo "0.96 (1.45%)" emptyMetrics).forward_dividend_yield =
      some (mkRat 29 20) := by
  have h := dividend_pattern_extraction "0.96 (1.45%)" emptyMetrics "0.96" "1.45%"
    (by decide)
  exact ⟨h.1.trans (by decide), h.2.trans (by decide)⟩

/-! ## Claim C8 -/

/-- Claim C8: the global price fallback (strategy 5) yields a price only
when some scanned element's text matches the strict pattern
`^\d{1,4}\.\d{2}$` exactly, the normalized value is greater than 1, and
the element's parent exists with identifying attributes (`data-testid`
and class list) that mention `price`, `quote` or `market` lower-cased;
an element failing any of these never produces the price. -/
theorem price_fallback_requires_keyword (es : List PElem) (p : ℚ)
    (h : method5Go es = some p) :
    1 < p ∧ ∃ e, e ∈ es ∧ strictPriceText e.text = true ∧
      cleanNumericValue e.text = some p ∧
      ∃ par, e.parent = some par ∧
        (strContains (parentAttrs par).pyLower "price" = true ∨
         strContains (parentAttrs par).pyLower "quote" = true ∨
         strContains (parentAttrs par).pyLower "market" = true) := by
  induction es with
  | nil => simp [method5Go] at h
  | cons e rest ih =>
    rw [method5Go] at h
    by_cases h1 : strictPriceText e.text = true
    · rw [if_pos h1] at h
      cases hc : cleanNumericValue e.text with
      | none =>
        rw [hc] at h
        obtain ⟨hp, e2, hm, he2⟩ := ih h
        exact ⟨hp, e2, List.mem_cons_of_mem e hm, he2⟩
      | some p0 =>
        rw [hc] at h
        dsimp only at h
        by_cases h2 : p0 ≠ 0 ∧ 1 < p0
        · rw [if_pos h2] at h
          cases hpar : e.parent with
          | none =>
            rw [hpar] at h
            obtain ⟨hp, e2, hm, he2⟩ := ih h
            exact ⟨hp, e2, List.mem_cons_of_mem e hm, he2⟩
          | some par =>
            rw [hpar] at h
            dsimp only at h
            by_cases h3 : (truthyS par.testid || !par.classes.isEmpty) = true
            · rw [if_pos h3] at h
              by_cases h4 : (strContains (parentAttrs par).pyLower "price" ||
                  strContains (parentAttrs par).pyLower "quote" ||
                  strContains (parentAttrs par).pyLower "market") = true
              · rw [if_pos h4] at h
                injection h with h5
                subst h5
                rcases (by simpa [Bool.or_eq_true] using h4 :
                    (strContains (parentAttrs par).pyLower "price" = true ∨
                     strContains (parentAttrs par).pyLower "quote" = true) ∨
                    strContains (parentAttrs par).pyLower "market" = true) with (hk | hk) | hk
                · exact ⟨h2.2, e, List.mem_cons_self e rest, h1, hc, par, hpar, Or.inl hk⟩
                · exact ⟨h2.2, e, List.mem_cons_self e rest, h1, hc, par, hpar,
                    Or.inr (Or.inl hk)⟩
                · exact ⟨h2.2, e, List.mem_cons_self e rest, h1, hc, par, hpar,
                    Or.inr (Or.inr hk)⟩
              · rw [if_neg h4] at h
                obtain ⟨hp, e2, hm, he2⟩ := ih h
                exact ⟨hp, e2, List.mem_cons_of_mem e hm, he2⟩
            · rw [if_neg h3] at h
              obtain ⟨hp, e2, hm, he2⟩ := ih h
              exact ⟨hp, e2, List.mem_cons_of_mem e hm, he2⟩
        · rw [if_neg h2] at h
          obtain ⟨hp, e2, hm, he2⟩ := ih h
          exact ⟨hp, e2, List.mem_cons_of_mem e hm, he2⟩
    · rw [if_neg h1] at h
      obtain ⟨hp, e2, hm, he2⟩ := ih h
      exact ⟨hp, e2, List.mem_cons_of_mem e hm, he2⟩

/-- Witness for `price_fallback_requires_keyword`: a `span` reading
`"123.45"` under a parent whose `data-testid` is `qsp-price`. -/
theorem price_fallback_requires_keyword_witness :
    1 < (mkRat 12345 100) ∧
    ∃ e, e ∈ ([⟨"123.45", some ⟨some "qsp-price", []⟩⟩] : List PElem) ∧
      strictPriceText e.text = true ∧
      cleanNumericValue e.text = some (mkRat 12345 100) ∧
      ∃ par, e.parent = some par ∧
        (strContains (parentAttrs par).pyLower "price" = true ∨
         strContains (parentAttrs par).pyLower "quote" = true ∨
         strContains (parentAttrs par).pyLower "market" = true) :=
  price_fallback_requires_keyword [⟨"123.45", some ⟨some "qsp-price", []⟩⟩]
    (mkRat 12345 100) (by decide)

/-! ## Claim C9 -/

/-- Claim C9: the secondary metrics calculator is total (never raises)
and every division is guarded: `peg_ratio` is present only when the P/E
and the growth estimate are both present with the growth nonzero (the
guard is Python truthiness, so both values are in fact nonzero);
`estimated_eps` only when the P/E is present and nonzero;
`dividend_coverage_ratio` only when the forward dividend rate is present
and nonzero. Every derived field is an `Option ℚ`: absent or a finite
rational. -/
theorem additional_metrics_division_guards (m : Metrics) :
    ((calculateAdditionalMetrics m).peg.isSome = true →
      (∃ p, m.pe_ratio_ttm = some p ∧ p ≠ 0) ∧
      (∃ g, m.growth_estimate_next_year = some g ∧ g ≠ 0)) ∧
    ((calculateAdditionalMetrics m).eps.isSome = true →
      ∃ p, m.pe_ratio_ttm = some p ∧ p ≠ 0) ∧
    ((calculateAdditionalMetrics m).coverage.isSome = true →
      ∃ r, m.forward_dividend_rate = some r ∧ r ≠ 0) := by
  refine ⟨?_, ?_, ?_⟩
  · intro h
    have hb : (truthyQ m.pe_ratio_ttm && truthyQ m.growth_estimate_next_year) = true := by
      by_contra hb
      rw [Bool.not_eq_true] at hb
      simp [calculateAdditionalMetrics, hb] at h
    rw [Bool.and_eq_true] at hb
    exact ⟨(truthyQ_eq_true_iff _).mp hb.1, (truthyQ_eq_true_iff _).mp hb.2⟩
  · intro h
    have hb : (truthyQ m.forward_dividend_rate && truthyQ m.current_price &&
        truthyQ m.pe_ratio_ttm) = true := by
      by_contra hb
      rw [Bool.not_eq_true] at hb
      simp [calculateAdditionalMetrics, hb] at h
    rw [Bool.and_eq_true] at hb
    exact (truthyQ_eq_true_iff _).mp hb.2
  · intro h
    have hb : (truthyQ m.forward_dividend_rate && truthyQ m.current_price &&
        truthyQ m.pe_ratio_ttm) = true := by
      by_contra hb
      rw [Bool.not_eq_true] at hb
      simp [calculateAdditionalMetrics, hb] at h
    rw [Bool.and_eq_true, Bool.and_eq_true] at hb
    exact (truthyQ_eq_true_iff _).mp hb.1.1

/-- Witness for `additional_metrics_division_guards` at a record with
price 20, P/E 100, dividend rate 1, and growth 10: the peg and coverage
keys are populated, and the guards certify presence and nonzeroness. -/
theorem additional_metrics_division_guards_witness :
    ((∃ p, (⟨"X", some 20, some 100, some 1, some 2, some 10, none⟩ :
        Metrics).pe_ratio_ttm = some p ∧ p ≠ 0) ∧
     (∃ g, (⟨"X", some 20, some 100, some 1, some 2, some 10, none⟩ :
        Metrics).growth_estimate_next_year = some g ∧ g ≠ 0)) ∧
    (∃ r, (⟨"X", some 20, some 100, some 1, some 2, some 10, none⟩ :
        Metrics).forward_dividend_rate = some r ∧ r ≠ 0) :=
  ⟨(additional_metrics_division_guards _).1
      (by norm_num [calculateAdditionalMetrics, truthyQ]),
   (additional_metrics_division_guards _).2.2
      (by norm_num [calculateAdditionalMetrics, truthyQ])⟩

/-! ## Claim C10 -/

/-- Claim C10 (implicit): every output-side consumer tests metric fields
with Python truthiness, so a field equal to exactly 0 behaves like an
absent field: the display formatter prints the `N/A` line for it, and the
secondary metrics calculator skips every derived metric whose guard
involves it. -/
theorem zero_indistinguishable_from_absent (m : Metrics) :
    (m.current_price = some 0 →
      "Current Price: N/A" ∈ displayLines m ∧
      (calculateAdditionalMetrics m).eps = none ∧
      (calculateAdditionalMetrics m).coverage = none) ∧
    (m.pe_ratio_ttm = some 0 →
      "PE Ratio (TTM): N/A" ∈ displayLines m ∧
      (calculateAdditionalMetrics m).peg = none ∧
      (calculateAdditionalMetrics m).eps = none ∧
      (calculateAdditionalMetrics m).coverage = none ∧
      (calculateAdditionalMetrics m).pb = none) ∧
    (m.forward_dividend_rate = some 0 →
      "Forward Dividend Rate: N/A" ∈ displayLines m ∧
      (calculateAdditionalMetrics m).eps = none ∧
      (calculateAdditionalMetrics m).coverage = none) ∧
    (m.forward_dividend_yield = some 0 →
      "Forward Dividend Yield: N/A" ∈ displayLines m) ∧
    (m.growth_estimate_next_year = some 0 →
      "Growth Estimate Next Year: N/A" ∈ displayLines m ∧
      (calculateAdditionalMetrics m).peg = none ∧
      (calculateAdditionalMetrics m).pb = none) := by
  have htr : truthyQ (some (0 : ℚ)) = false := by decide
  refine ⟨?_, ?_, ?_, ?_, ?_⟩
  · intro h
    refine ⟨?_, ?_, ?_⟩
    · simp [displayLines, h, htr]
    · simp [calculateAdditionalMetrics, h, htr]
    · simp [calculateAdditionalMetrics, h, htr]
  · intro h
    refine ⟨?_, ?_, ?_, ?_, ?_⟩
    · simp [displayLines, h, htr]
    · simp [calculateAdditionalMetrics, h, htr]
    · simp [calculateAdditionalMetrics, h, htr]
    · simp [calculateAdditionalMetrics, h, htr]
    · simp [calculateAdditionalMetrics, h, htr]
  · intro h
    refine ⟨?_, ?_, ?_⟩
    · simp [displayLines, h, htr]
    · simp [calculateAdditionalMetrics, h, htr]
    · simp [calculateAdditionalMetrics, h, htr]
  · intro h
    simp [displayLines, h, htr]
  · intro h
    refine ⟨?_, ?_, ?_⟩
    · simp [displayLines, h, htr]
    · simp [calculateAdditionalMetrics, h, htr]
    · simp [calculateAdditionalMetrics, h, htr]

/-- Witness for `zero_indistinguishable_from_absent` at a record whose
fields are all exactly 0: the yield line prints `N/A` and the peg ratio
is skipped. -/
theorem zero_indistinguishable_from_absent_witness :
    "Forward Dividend Yield: N/A" ∈
      displayLines (⟨"T", some 0, some 0, some 0, some 0, some 0, none⟩ : Metrics) ∧
    (calculateAdditionalMetrics
      (⟨"T", some 0, some 0, some 0, some 0, some 0, none⟩ : Metrics)).peg = none :=
  ⟨(zero_indistinguishable_from_absent _).2.2.2.1 rfl,
   ((zero_indistinguishable_from_absent _).2.1 rfl).2.1⟩
